import Mathlib

/-!
Shallow embedding of the Secure Tar Archive Processor (src/main.py).

The Python program exposes a class SecureTarProcessor with two entry
points, list_archive and extract_archive, both iterating the members of
a tar archive while tracking a file count and a cumulative size against
configured ceilings.  The embedding below models:

  - a tar member as an Entry (name, kind, declared size, byte content,
    link target), with the tarfile predicates isfile / isdir / islnk /
    issym as Boolean functions on the kind;
  - an opened archive as Option (List Entry): none models a tarfile.open
    failure (tarfile.ReadError caught by the except clause), some gives
    the member stream in order;
  - filesystem mutations as an explicit trace of FsEffect values, in the
    order the Python code performs them (mkdir of the destination root,
    mkdir with parents=True of each member parent, file writes, mkdir of
    directory members);
  - printed lines as a list of strings, rendered as the f-strings in the
    code render them;
  - the two ReadError raises of the loops as WalkError values caught by
    the outer try/except, which converts them to a False return value.

Byte contents are lists of natural numbers (each byte a Nat).  Paths are
strings manipulated lexically, as pathlib manipulates them: joining with
an absolute right operand discards the left operand, parent is the
lexical removal of the last component.  Lexical normalization (isWithin)
is used only in theorem statements to express whether a path stays under
the destination root; the program itself never performs such a check.
-/

/-- Kind of a tar archive member, mirroring the tarfile member
predicates used by main.py. -/
inductive EntryKind
  | regularFile
  | directory
  | symbolicLink
  | hardLink
  | other
  deriving DecidableEq

/-- One tar archive member: raw name, kind, declared size in bytes,
byte content (meaningful for regular files), and link target
(meaningful for link kinds; main.py never reads it). -/
structure Entry where
  name : String
  kind : EntryKind
  size : Nat
  content : List Nat
  linkname : String
  deriving DecidableEq

/-- member.isfile() in tarfile terms. -/
def Entry.isfile (m : Entry) : Bool := decide (m.kind = EntryKind.regularFile)

/-- member.isdir() in tarfile terms. -/
def Entry.isdir (m : Entry) : Bool := decide (m.kind = EntryKind.directory)

/-- member.islnk() in tarfile terms (hard link). -/
def Entry.islnk (m : Entry) : Bool := decide (m.kind = EntryKind.hardLink)

/-- member.issym() in tarfile terms (symbolic link). -/
def Entry.issym (m : Entry) : Bool := decide (m.kind = EntryKind.symbolicLink)

/-- The processor configuration set in __init__: max_extract_size and
max_files. -/
structure SecureTarProcessor where
  max_extract_size : Nat
  max_files : Nat
  deriving DecidableEq

/-- The two tarfile.ReadError raises of the walk loops.  The spec names
them TooManyEntries and ArchiveTooLarge; the code raises ReadError with
the messages rendered by renderError below. -/
inductive WalkError
  | tooManyFiles (limit : Nat)
  | archiveTooLarge (limit : Nat)
  deriving DecidableEq

/-- The message string of each raised ReadError, as the f-strings on
lines 34, 40, 80 and 86 of main.py render it. -/
def renderError : WalkError → String
  | WalkError.tooManyFiles n => "Too many files (>" ++ toString n ++ ")"
  | WalkError.archiveTooLarge n => "Archive too large (>" ++ toString n ++ " bytes)"

/-- One filesystem mutation performed by extract_archive, in source
order: extract_path.mkdir(exist_ok=True) on line 65, the
safe_path.parent.mkdir(parents=True, exist_ok=True) on line 90, the
open(safe_path, wb).write on lines 94 and 95, and the
safe_path.mkdir(exist_ok=True) on line 98.  list_archive performs
none. -/
inductive FsEffect
  | mkdirRoot (path : String)
  | mkdirParents (path : String)
  | writeFile (path : String) (content : List Nat)
  | mkdir (path : String)
  deriving DecidableEq

/-- State of one walk loop: the file_count and total_size local
variables, the filesystem effects and printed lines produced so far,
and the ReadError raised, if any. -/
@[ext]
structure LoopState where
  file_count : Nat
  total_size : Nat
  effects : List FsEffect
  output : List String
  err : Option WalkError
  deriving DecidableEq

/-- Result of one call to list_archive or extract_archive: the
filesystem effect trace, the printed lines, and the Boolean return
value. -/
structure ExtractResult where
  effects : List FsEffect
  output : List String
  success : Bool
  deriving DecidableEq

/-- The string "-" * 50 printed as a separator. -/
def dashes : String := String.mk (List.replicate 50 '-')

/-- Python str left-justified padding to a minimal width, as in the
format spec {member.name:40}. -/
def padRight (s : String) (w : Nat) : String :=
  s ++ String.mk (List.replicate (w - s.length) ' ')

/-- Python str right-justified padding to a minimal width, as in the
format spec {member.size:>10}. -/
def padLeft (s : String) (w : Nat) : String :=
  String.mk (List.replicate (w - s.length) ' ') ++ s

/-- Helper for splitPath: accumulate characters of the current
component (reversed) and cut at each slash. -/
def splitPathAux : List Char → List Char → List String
  | [], acc => [String.mk acc.reverse]
  | c :: rest, acc =>
      if c = '/' then String.mk acc.reverse :: splitPathAux rest []
      else splitPathAux rest (c :: acc)

/-- Split a path string on slashes, keeping empty components, with the
same outcome as splitting the string on the separator. -/
def splitPath (p : String) : List String := splitPathAux p.toList []

/-- Whether the path begins with a path-root marker (a leading
slash). -/
def isAbsolute (p : String) : Bool :=
  match p.toList with
  | [] => false
  | c :: _ => decide (c = '/')

/-- Join path components back with slashes. -/
def joinComps : List String → String
  | [] => ""
  | [c] => c
  | c :: rest => c ++ "/" ++ joinComps rest

/-- Component-wise list prefix test, written with structural recursion
so that concrete instances evaluate. -/
def isBelow : List String → List String → Bool
  | [], _ => true
  | _ :: _, [] => false
  | a :: as, b :: bs => decide (a = b) && isBelow as bs

/-- The last meaningful path component, as pathlib.PurePath.name:
trailing slashes and single-dot components are ignored. -/
def lastComponent (p : String) : String :=
  match ((splitPath p).filter (fun c => c ≠ "" ∧ c ≠ ".")).getLast? with
  | some c => c
  | none => ""

/-- pathlib.PurePath.stem: the final component without its last suffix.
A dot at index 0 or at the last index of the component does not start a
suffix. -/
def pathStem (p : String) : String :=
  let name := lastComponent p
  let cs := name.toList
  match cs.reverse.findIdx? (fun c => c = '.') with
  | none => name
  | some j =>
      let i := cs.length - 1 - j
      if 0 < i ∧ i < cs.length - 1 then String.mk (cs.take i) else name

/-- pathlib join extract_path / member.name on line 89: an absolute
right operand replaces the left operand entirely. -/
def joinPath (root name : String) : String :=
  if isAbsolute name then name else root ++ "/" ++ name

/-- pathlib.PurePath.parent: lexically drop the last component (no
resolution of dot-dot segments). -/
def parentOf (p : String) : String :=
  let comps := splitPath p
  if comps.length ≤ 1 then "."
  else
    let front := comps.dropLast
    if front = [""] then "/" else joinComps front

/-- One step of lexical path normalization: empty and single-dot
components vanish, a dot-dot component pops the previous component when
one exists, stays in a relative path otherwise, and vanishes at the
root of an absolute path. -/
def normStep (isAbs : Bool) (acc : List String) (c : String) : List String :=
  if c = "" ∨ c = "." then acc
  else if c = ".." then
    match acc.getLast? with
    | some last => if last = ".." then acc ++ [".."] else acc.dropLast
    | none => if isAbs then [] else [".."]
  else acc ++ [c]

/-- Lexical normalization of a path: absoluteness flag and the
normalized component list. -/
def normalizePath (p : String) : Bool × List String :=
  let isAbs := isAbsolute p
  (isAbs, (splitPath p).foldl (normStep isAbs) [])

/-- Whether a path, after lexical normalization, equals the destination
root or lies below it (component-wise prefix, matching the Path
Sanitizer contract of the spec).  main.py never computes this. -/
def isWithin (root p : String) : Bool :=
  let r := normalizePath root
  let q := normalizePath p
  r.1 == q.1 && isBelow r.2 q.2

/-- The destination directory of extract_archive: the optional second
argument, defaulting to Path(tar_path).stem + "_extracted" (lines 61
and 62). -/
def destRoot (tar_path : String) (extract_to : Option String) : String :=
  match extract_to with
  | none => pathStem tar_path ++ "_extracted"
  | some s => s

/-- The type character of list mode, from _get_type_char. -/
def get_type_char (m : Entry) : String :=
  if m.isfile then "f"
  else if m.isdir then "d"
  else if m.islnk then "l"
  else if m.issym then "s"
  else "?"

/-- The display line printed for one member in list mode (line 44). -/
def displayLine (m : Entry) : String :=
  get_type_char m ++ " " ++ padRight m.name 40 ++ " " ++ padLeft (toString m.size) 10 ++ " bytes"

/-- The filesystem effects of one accepted member in extract mode,
lines 88 to 99 of main.py: the parent mkdir with parents=True happens
for every member regardless of kind; then a regular file is written
byte for byte, a directory is created, and any other kind (links,
others) produces nothing further. -/
def entryEffects (root : String) (m : Entry) : List FsEffect :=
  if m.isfile then
    [FsEffect.mkdirParents (parentOf (joinPath root m.name)),
     FsEffect.writeFile (joinPath root m.name) m.content]
  else if m.isdir then
    [FsEffect.mkdirParents (parentOf (joinPath root m.name)),
     FsEffect.mkdir (joinPath root m.name)]
  else
    [FsEffect.mkdirParents (parentOf (joinPath root m.name))]

/-- The lines printed for one accepted member in extract mode (lines 96
and 99); link and other kinds print nothing. -/
def entryOutput (m : Entry) : List String :=
  if m.isfile then ["Extracted: " ++ m.name]
  else if m.isdir then ["Created directory: " ++ m.name]
  else []

/-- The for loop of extract_archive (lines 75 to 99): increment
file_count and raise past max_files; for regular files add the declared
size and raise past max_extract_size; otherwise create the parent
directories and materialize the member.  A raise discards nothing
already done: effects and output of earlier members stay. -/
def extractLoop (self : SecureTarProcessor) (root : String) :
    List Entry → Nat → Nat → LoopState
  | [], fc, ts => ⟨fc, ts, [], [], none⟩
  | m :: rest, fc, ts =>
    if self.max_files < fc + 1 then
      ⟨fc + 1, ts, [], [], some (WalkError.tooManyFiles self.max_files)⟩
    else if m.isfile ∧ self.max_extract_size < ts + m.size then
      ⟨fc + 1, ts + m.size, [], [], some (WalkError.archiveTooLarge self.max_extract_size)⟩
    else
      let s := extractLoop self root rest (fc + 1) (if m.isfile then ts + m.size else ts)
      ⟨s.file_count, s.total_size, entryEffects root m ++ s.effects,
       entryOutput m ++ s.output, s.err⟩

/-- The for loop of list_archive (lines 29 to 44): identical limit
logic, but the member is only displayed; no filesystem effect is ever
produced. -/
def listLoop (self : SecureTarProcessor) :
    List Entry → Nat → Nat → LoopState
  | [], fc, ts => ⟨fc, ts, [], [], none⟩
  | m :: rest, fc, ts =>
    if self.max_files < fc + 1 then
      ⟨fc + 1, ts, [], [], some (WalkError.tooManyFiles self.max_files)⟩
    else if m.isfile ∧ self.max_extract_size < ts + m.size then
      ⟨fc + 1, ts + m.size, [], [], some (WalkError.archiveTooLarge self.max_extract_size)⟩
    else
      let s := listLoop self rest (fc + 1) (if m.isfile then ts + m.size else ts)
      ⟨s.file_count, s.total_size, s.effects, displayLine m :: s.output, s.err⟩

/-- SecureTarProcessor.list_archive.  The archive argument stands for
the outcome of tarfile.open: none when opening raises (caught on line
50), some entries for the member stream.  The function reads the
filesystem only through the archive handle and mutates nothing, so the
effect trace is empty in every branch. -/
def SecureTarProcessor.list_archive (self : SecureTarProcessor) (tar_path : String)
    (archive : Option (List Entry)) : ExtractResult :=
  let header := ["Listing contents of: " ++ tar_path, dashes]
  match archive with
  | none =>
      ⟨[], header ++ ["Error reading tar file: unable to open archive"], false⟩
  | some entries =>
      let s := listLoop self entries 0 0
      match s.err with
      | some e =>
          ⟨[], header ++ s.output ++ ["Error reading tar file: " ++ renderError e], false⟩
      | none =>
          ⟨[], header ++ s.output ++
             [dashes, "Total files: " ++ toString s.file_count,
              "Total size: " ++ toString s.total_size ++ " bytes"], true⟩

/-- SecureTarProcessor.extract_archive.  The destination root directory
is created on line 65, before the try block that opens the archive, so
the mkdir of the root heads the effect trace in every branch, including
an archive that cannot be opened.  Every exception raised inside the
try block is caught and converted to a False return value. -/
def SecureTarProcessor.extract_archive (self : SecureTarProcessor) (tar_path : String)
    (extract_to : Option String) (archive : Option (List Entry)) : ExtractResult :=
  let root := destRoot tar_path extract_to
  let header := ["Extracting " ++ tar_path ++ " to " ++ root, dashes]
  match archive with
  | none =>
      ⟨[FsEffect.mkdirRoot root],
       header ++ ["Error extracting tar file: unable to open archive"], false⟩
  | some entries =>
      let s := extractLoop self root entries 0 0
      match s.err with
      | some e =>
          ⟨FsEffect.mkdirRoot root :: s.effects,
           header ++ s.output ++ ["Error extracting tar file: " ++ renderError e], false⟩
      | none =>
          ⟨FsEffect.mkdirRoot root :: s.effects,
           header ++ s.output ++
             [dashes, "Extraction complete: " ++ toString s.file_count ++ " files, " ++
                toString s.total_size ++ " bytes"], true⟩

/-- Sum of the declared sizes of the regular-file members, the value
total_size reaches when a walk completes. -/
def fileSizeSum : List Entry → Nat
  | [] => 0
  | m :: rest => (if m.isfile then m.size else 0) + fileSizeSum rest

@[simp] theorem LoopState.mk_file_count (a b : Nat) (c : List FsEffect) (d : List String)
    (e : Option WalkError) : (LoopState.mk a b c d e).file_count = a := rfl

@[simp] theorem LoopState.mk_total_size (a b : Nat) (c : List FsEffect) (d : List String)
    (e : Option WalkError) : (LoopState.mk a b c d e).total_size = b := rfl

@[simp] theorem LoopState.mk_effects (a b : Nat) (c : List FsEffect) (d : List String)
    (e : Option WalkError) : (LoopState.mk a b c d e).effects = c := rfl

@[simp] theorem LoopState.mk_output (a b : Nat) (c : List FsEffect) (d : List String)
    (e : Option WalkError) : (LoopState.mk a b c d e).output = d := rfl

@[simp] theorem LoopState.mk_err (a b : Nat) (c : List FsEffect) (d : List String)
    (e : Option WalkError) : (LoopState.mk a b c d e).err = e := rfl

theorem extractLoop_mono (self : SecureTarProcessor) (root : String)
    (entries : List Entry) : ∀ fc ts : Nat,
    fc ≤ (extractLoop self root entries fc ts).file_count ∧
      ts ≤ (extractLoop self root entries fc ts).total_size := by
  induction entries with
  | nil => intro fc ts; simp [extractLoop]
  | cons m rest ih =>
    intro fc ts
    simp only [extractLoop]
    split_ifs with h1 h2 hf
    · exact ⟨Nat.le_succ fc, Nat.le_refl ts⟩
    · exact ⟨Nat.le_succ fc, Nat.le_add_right ts m.size⟩
    · simp only [LoopState.mk_file_count, LoopState.mk_total_size, LoopState.mk_effects, LoopState.mk_output, LoopState.mk_err]
      rcases ih (fc + 1) (ts + m.size) with ⟨hfc, hts⟩
      exact ⟨le_trans (Nat.le_succ fc) hfc, le_trans (Nat.le_add_right ts m.size) hts⟩
    · simp only [LoopState.mk_file_count, LoopState.mk_total_size, LoopState.mk_effects, LoopState.mk_output, LoopState.mk_err]
      rcases ih (fc + 1) ts with ⟨hfc, hts⟩
      exact ⟨le_trans (Nat.le_succ fc) hfc, hts⟩

theorem extractLoop_counts_of_ok (self : SecureTarProcessor) (root : String)
    (entries : List Entry) : ∀ fc ts : Nat,
    (extractLoop self root entries fc ts).err = none →
    (extractLoop self root entries fc ts).file_count = fc + entries.length ∧
      (extractLoop self root entries fc ts).total_size = ts + fileSizeSum entries := by
  induction entries with
  | nil => intro fc ts _; simp [extractLoop, fileSizeSum]
  | cons m rest ih =>
    intro fc ts h
    simp only [extractLoop] at h ⊢
    split_ifs at h ⊢ with h1 h2 hf
    · simp only [LoopState.mk_file_count, LoopState.mk_total_size, LoopState.mk_effects, LoopState.mk_output, LoopState.mk_err] at h ⊢
      rcases ih (fc + 1) (ts + m.size) h with ⟨hfc, hts⟩
      simp [hfc, hts, fileSizeSum, hf]
      omega
    · simp only [LoopState.mk_file_count, LoopState.mk_total_size, LoopState.mk_effects, LoopState.mk_output, LoopState.mk_err] at h ⊢
      rcases ih (fc + 1) ts h with ⟨hfc, hts⟩
      simp [hfc, hts, fileSizeSum, hf]
      omega

theorem extractLoop_ok_of_bounds (self : SecureTarProcessor) (root : String)
    (entries : List Entry) : ∀ fc ts : Nat,
    fc + entries.length ≤ self.max_files →
    ts + fileSizeSum entries ≤ self.max_extract_size →
    (extractLoop self root entries fc ts).err = none := by
  induction entries with
  | nil => intro fc ts _ _; simp [extractLoop]
  | cons m rest ih =>
    intro fc ts hcount hsize
    simp only [List.length_cons] at hcount
    simp only [fileSizeSum] at hsize
    simp only [extractLoop]
    split_ifs with h1 h2 hf
    · omega
    · rcases h2 with ⟨hf, hlt⟩
      simp [hf] at hsize
      omega
    · simp only [LoopState.mk_file_count, LoopState.mk_total_size, LoopState.mk_effects, LoopState.mk_output, LoopState.mk_err]
      simp only [hf, if_true] at hsize
      exact ih (fc + 1) (ts + m.size) (by omega) (by omega)
    · simp only [LoopState.mk_file_count, LoopState.mk_total_size, LoopState.mk_effects, LoopState.mk_output, LoopState.mk_err]
      simp only [hf, if_false] at hsize
      exact ih (fc + 1) ts (by omega) (by omega)

theorem extractLoop_mem_effects (self : SecureTarProcessor) (root : String)
    (entries : List Entry) : ∀ fc ts : Nat,
    (extractLoop self root entries fc ts).err = none →
    ∀ m ∈ entries, ∀ eff ∈ entryEffects root m,
      eff ∈ (extractLoop self root entries fc ts).effects := by
  induction entries with
  | nil => intro fc ts _ m hm; simp at hm
  | cons m' rest ih =>
    intro fc ts h m hm eff he
    simp only [extractLoop] at h ⊢
    split_ifs at h ⊢ with h1 h2 hf
    · simp only [LoopState.mk_file_count, LoopState.mk_total_size, LoopState.mk_effects, LoopState.mk_output, LoopState.mk_err] at h ⊢
      rcases List.mem_cons.mp hm with hmeq | hmem
      · subst hmeq
        exact List.mem_append_left _ he
      · exact List.mem_append_right _ (ih (fc + 1) (ts + m'.size) h m hmem eff he)
    · simp only [LoopState.mk_file_count, LoopState.mk_total_size, LoopState.mk_effects, LoopState.mk_output, LoopState.mk_err] at h ⊢
      rcases List.mem_cons.mp hm with hmeq | hmem
      · subst hmeq
        exact List.mem_append_left _ he
      · exact List.mem_append_right _ (ih (fc + 1) ts h m hmem eff he)

theorem extractLoop_writeFile_src (self : SecureTarProcessor) (root : String)
    (entries : List Entry) : ∀ fc ts : Nat, ∀ p : String, ∀ c : List Nat,
    FsEffect.writeFile p c ∈ (extractLoop self root entries fc ts).effects →
    ∃ m, m ∈ entries ∧ m.isfile = true ∧ p = joinPath root m.name ∧ c = m.content := by
  induction entries with
  | nil => intro fc ts p c h; simp [extractLoop] at h
  | cons m' rest ih =>
    intro fc ts p c h
    simp only [extractLoop] at h
    split_ifs at h with h1 h2 hf
    · simp at h
    · simp at h
    · simp only [LoopState.mk_file_count, LoopState.mk_total_size, LoopState.mk_effects, LoopState.mk_output, LoopState.mk_err] at h
      rcases List.mem_append.mp h with hhead | htail
      · simp [entryEffects, hf] at hhead
        rcases hhead with ⟨hp, hc⟩
        exact ⟨m', List.mem_cons_self m' rest, hf, hp, hc⟩
      · rcases ih (fc + 1) (ts + m'.size) p c htail with ⟨m, hmem, hfile, hp, hc⟩
        exact ⟨m, List.mem_cons_of_mem m' hmem, hfile, hp, hc⟩
    · simp only [LoopState.mk_file_count, LoopState.mk_total_size, LoopState.mk_effects, LoopState.mk_output, LoopState.mk_err] at h
      rcases List.mem_append.mp h with hhead | htail
      · by_cases hd : m'.isdir = true
        · simp [entryEffects, hf, hd] at hhead
        · simp [entryEffects, hf, hd] at hhead
      · rcases ih (fc + 1) ts p c htail with ⟨m, hmem, hfile, hp, hc⟩
        exact ⟨m, List.mem_cons_of_mem m' hmem, hfile, hp, hc⟩

theorem listLoop_counts_eq (self : SecureTarProcessor) (root : String)
    (entries : List Entry) : ∀ fc ts : Nat,
    (listLoop self entries fc ts).file_count = (extractLoop self root entries fc ts).file_count ∧
    (listLoop self entries fc ts).total_size = (extractLoop self root entries fc ts).total_size ∧
    (listLoop self entries fc ts).err = (extractLoop self root entries fc ts).err := by
  induction entries with
  | nil => intro fc ts; simp [extractLoop, listLoop]
  | cons m rest ih =>
    intro fc ts
    simp only [extractLoop, listLoop]
    split_ifs with h1 h2 hf
    · exact ⟨rfl, rfl, rfl⟩
    · exact ⟨rfl, rfl, rfl⟩
    · simp only [LoopState.mk_file_count, LoopState.mk_total_size, LoopState.mk_effects, LoopState.mk_output, LoopState.mk_err]
      exact ih (fc + 1) (ts + m.size)
    · simp only [LoopState.mk_file_count, LoopState.mk_total_size, LoopState.mk_effects, LoopState.mk_output, LoopState.mk_err]
      exact ih (fc + 1) ts

theorem extractLoop_append (self : SecureTarProcessor) (root : String)
    (pre xs : List Entry) : ∀ fc ts : Nat,
    (extractLoop self root pre fc ts).err = none →
    extractLoop self root (pre ++ xs) fc ts =
      ⟨(extractLoop self root xs (extractLoop self root pre fc ts).file_count
          (extractLoop self root pre fc ts).total_size).file_count,
       (extractLoop self root xs (extractLoop self root pre fc ts).file_count
          (extractLoop self root pre fc ts).total_size).total_size,
       (extractLoop self root pre fc ts).effects ++
         (extractLoop self root xs (extractLoop self root pre fc ts).file_count
            (extractLoop self root pre fc ts).total_size).effects,
       (extractLoop self root pre fc ts).output ++
         (extractLoop self root xs (extractLoop self root pre fc ts).file_count
            (extractLoop self root pre fc ts).total_size).output,
       (extractLoop self root xs (extractLoop self root pre fc ts).file_count
          (extractLoop self root pre fc ts).total_size).err⟩ := by
  induction pre with
  | nil => intro fc ts _; simp [extractLoop]
  | cons m pre ih =>
    intro fc ts h
    simp only [extractLoop, List.cons_append] at h ⊢
    split_ifs at h ⊢ with h1 h2 hf
    · simp only [LoopState.mk_file_count, LoopState.mk_total_size, LoopState.mk_effects, LoopState.mk_output, LoopState.mk_err] at h ⊢
      simp only [List.append_eq]
      rw [ih (fc + 1) (ts + m.size) h]
      simp [List.append_assoc]
    · simp only [LoopState.mk_file_count, LoopState.mk_total_size, LoopState.mk_effects, LoopState.mk_output, LoopState.mk_err] at h ⊢
      simp only [List.append_eq]
      rw [ih (fc + 1) ts h]
      simp [List.append_assoc]

theorem extract_archive_ok_parts (self : SecureTarProcessor) (tar : String)
    (ex : Option String) (entries : List Entry)
    (hok : (extractLoop self (destRoot tar ex) entries 0 0).err = none) :
    self.extract_archive tar ex (some entries) =
      ⟨FsEffect.mkdirRoot (destRoot tar ex) ::
         (extractLoop self (destRoot tar ex) entries 0 0).effects,
       ["Extracting " ++ tar ++ " to " ++ destRoot tar ex, dashes] ++
         (extractLoop self (destRoot tar ex) entries 0 0).output ++
         [dashes, "Extraction complete: " ++
            toString (extractLoop self (destRoot tar ex) entries 0 0).file_count ++
            " files, " ++
            toString (extractLoop self (destRoot tar ex) entries 0 0).total_size ++ " bytes"],
       true⟩ := by
  simp [SecureTarProcessor.extract_archive, hok]

theorem extract_archive_err_parts (self : SecureTarProcessor) (tar : String)
    (ex : Option String) (entries : List Entry) (e : WalkError)
    (he : (extractLoop self (destRoot tar ex) entries 0 0).err = some e) :
    self.extract_archive tar ex (some entries) =
      ⟨FsEffect.mkdirRoot (destRoot tar ex) ::
         (extractLoop self (destRoot tar ex) entries 0 0).effects,
       ["Extracting " ++ tar ++ " to " ++ destRoot tar ex, dashes] ++
         (extractLoop self (destRoot tar ex) entries 0 0).output ++
         ["Error extracting tar file: " ++ renderError e],
       false⟩ := by
  simp [SecureTarProcessor.extract_archive, he]

theorem list_archive_ok_parts (self : SecureTarProcessor) (tar : String)
    (entries : List Entry)
    (hok : (listLoop self entries 0 0).err = none) :
    self.list_archive tar (some entries) =
      ⟨[], ["Listing contents of: " ++ tar, dashes] ++ (listLoop self entries 0 0).output ++
         [dashes, "Total files: " ++ toString (listLoop self entries 0 0).file_count,
          "Total size: " ++ toString (listLoop self entries 0 0).total_size ++ " bytes"],
       true⟩ := by
  simp [SecureTarProcessor.list_archive, hok]

theorem list_archive_err_parts (self : SecureTarProcessor) (tar : String)
    (entries : List Entry) (e : WalkError)
    (he : (listLoop self entries 0 0).err = some e) :
    self.list_archive tar (some entries) =
      ⟨[], ["Listing contents of: " ++ tar, dashes] ++ (listLoop self entries 0 0).output ++
         ["Error reading tar file: " ++ renderError e],
       false⟩ := by
  simp [SecureTarProcessor.list_archive, he]

/-- Claim C2: for every archive whose entry count is at most max_files,
whose cumulative regular-file size is at most max_extract_size, and all
of whose entry names lexically resolve inside the destination root
(names with internal dot-dot segments that stay confined included),
extract_archive succeeds, and the content written to disk for every
RegularFile entry is byte for byte the content of that entry in the
archive: the trace holds a write of the joined path with exactly the
entry bytes for each regular file, and conversely every write in the
trace carries the bytes of some regular-file entry. -/
theorem extract_success_within_limits (self : SecureTarProcessor) (tar root : String)
    (entries : List Entry)
    (hcount : entries.length ≤ self.max_files)
    (hsize : fileSizeSum entries ≤ self.max_extract_size)
    (hsafe : ∀ m ∈ entries, isWithin root (joinPath root m.name) = true) :
    (self.extract_archive tar (some root) (some entries)).success = true ∧
    (∀ m ∈ entries, m.isfile = true →
      FsEffect.writeFile (joinPath root m.name) m.content ∈
        (self.extract_archive tar (some root) (some entries)).effects) ∧
    (∀ p : String, ∀ c : List Nat,
      FsEffect.writeFile p c ∈ (self.extract_archive tar (some root) (some entries)).effects →
      ∃ m, m ∈ entries ∧ m.isfile = true ∧ p = joinPath root m.name ∧ c = m.content) := by
  have hok : (extractLoop self root entries 0 0).err = none :=
    extractLoop_ok_of_bounds self root entries 0 0 (by omega) (by omega)
  rw [extract_archive_ok_parts self tar (some root) entries hok]
  refine ⟨rfl, ?_, ?_⟩
  · intro m hm hf
    refine List.mem_cons_of_mem _ (extractLoop_mem_effects self root entries 0 0 hok m hm _ ?_)
    simp [entryEffects, hf]
  · intro p c hmem
    rcases List.mem_cons.mp hmem with habs | hmem
    · exact absurd habs (by simp)
    · exact extractLoop_writeFile_src self root entries 0 0 p c hmem

/-- Claim C3: if the walk up to some entry has raised no error and that
entry would push the file count past max_files (respectively, is a
regular file whose declared size pushes the running total past
max_extract_size), the walk aborts there with the Too many files
(respectively, Archive too large) ReadError, extract_archive returns
False, and the effect trace holds exactly the root mkdir plus the
effects of the already validated prefix: nothing of the violating entry
or of any later entry is written. -/
theorem extract_abort_on_limit (self : SecureTarProcessor) (tar root : String)
    (pre : List Entry) (m : Entry) (rest : List Entry)
    (hpre : (extractLoop self root pre 0 0).err = none) :
    (self.max_files < (extractLoop self root pre 0 0).file_count + 1 →
      (extractLoop self root (pre ++ m :: rest) 0 0).err =
        some (WalkError.tooManyFiles self.max_files) ∧
      (self.extract_archive tar (some root) (some (pre ++ m :: rest))).success = false ∧
      (self.extract_archive tar (some root) (some (pre ++ m :: rest))).effects =
        FsEffect.mkdirRoot root :: (extractLoop self root pre 0 0).effects) ∧
    (¬ self.max_files < (extractLoop self root pre 0 0).file_count + 1 →
      m.isfile = true →
      self.max_extract_size < (extractLoop self root pre 0 0).total_size + m.size →
      (extractLoop self root (pre ++ m :: rest) 0 0).err =
        some (WalkError.archiveTooLarge self.max_extract_size) ∧
      (self.extract_archive tar (some root) (some (pre ++ m :: rest))).success = false ∧
      (self.extract_archive tar (some root) (some (pre ++ m :: rest))).effects =
        FsEffect.mkdirRoot root :: (extractLoop self root pre 0 0).effects) := by
  have happ := extractLoop_append self root pre (m :: rest) 0 0 hpre
  constructor
  · intro hcount
    have hstep : extractLoop self root (m :: rest)
        (extractLoop self root pre 0 0).file_count (extractLoop self root pre 0 0).total_size =
        ⟨(extractLoop self root pre 0 0).file_count + 1,
         (extractLoop self root pre 0 0).total_size, [], [],
         some (WalkError.tooManyFiles self.max_files)⟩ := by
      simp only [extractLoop]
      rw [if_pos hcount]
    have herr : (extractLoop self root (pre ++ m :: rest) 0 0).err =
        some (WalkError.tooManyFiles self.max_files) := by
      rw [happ, hstep]
    have heff : (extractLoop self root (pre ++ m :: rest) 0 0).effects =
        (extractLoop self root pre 0 0).effects := by
      rw [happ, hstep]
      simp
    refine ⟨herr, ?_, ?_⟩
    · rw [extract_archive_err_parts self tar (some root) (pre ++ m :: rest) _ herr]
    · rw [extract_archive_err_parts self tar (some root) (pre ++ m :: rest) _ herr]
      simp [destRoot, heff]
  · intro hcount hf hsz
    have hstep : extractLoop self root (m :: rest)
        (extractLoop self root pre 0 0).file_count (extractLoop self root pre 0 0).total_size =
        ⟨(extractLoop self root pre 0 0).file_count + 1,
         (extractLoop self root pre 0 0).total_size + m.size, [], [],
         some (WalkError.archiveTooLarge self.max_extract_size)⟩ := by
      simp only [extractLoop]
      rw [if_neg hcount, if_pos (show m.isfile = true ∧
        self.max_extract_size < (extractLoop self root pre 0 0).total_size + m.size from ⟨hf, hsz⟩)]
    have herr : (extractLoop self root (pre ++ m :: rest) 0 0).err =
        some (WalkError.archiveTooLarge self.max_extract_size) := by
      rw [happ, hstep]
    have heff : (extractLoop self root (pre ++ m :: rest) 0 0).effects =
        (extractLoop self root pre 0 0).effects := by
      rw [happ, hstep]
      simp
    refine ⟨herr, ?_, ?_⟩
    · rw [extract_archive_err_parts self tar (some root) (pre ++ m :: rest) _ herr]
    · rw [extract_archive_err_parts self tar (some root) (pre ++ m :: rest) _ herr]
      simp [destRoot, heff]

/-- Claim C7: within a single walk, in list and in extract mode alike,
the running totals file_count and total_size are monotonically
non-decreasing, and when a walk processes all entries without error the
file count grows by exactly one per entry of any kind while the size
total grows by exactly the declared sizes of the RegularFile entries.
Both walks invoke their loop with the totals initialized to zero. -/
theorem running_totals_invariant (self : SecureTarProcessor) (root : String)
    (entries : List Entry) (fc ts : Nat) :
    (fc ≤ (extractLoop self root entries fc ts).file_count ∧
     ts ≤ (extractLoop self root entries fc ts).total_size) ∧
    (fc ≤ (listLoop self entries fc ts).file_count ∧
     ts ≤ (listLoop self entries fc ts).total_size) ∧
    ((extractLoop self root entries fc ts).err = none →
      (extractLoop self root entries fc ts).file_count = fc + entries.length ∧
      (extractLoop self root entries fc ts).total_size = ts + fileSizeSum entries) ∧
    ((listLoop self entries fc ts).err = none →
      (listLoop self entries fc ts).file_count = fc + entries.length ∧
      (listLoop self entries fc ts).total_size = ts + fileSizeSum entries) := by
  rcases listLoop_counts_eq self root entries fc ts with ⟨hc, hs, he⟩
  refine ⟨extractLoop_mono self root entries fc ts, ⟨?_, ?_⟩,
    extractLoop_counts_of_ok self root entries fc ts, ?_⟩
  · rw [hc]
    exact (extractLoop_mono self root entries fc ts).1
  · rw [hs]
    exact (extractLoop_mono self root entries fc ts).2
  · intro h
    rw [hc, hs]
    exact extractLoop_counts_of_ok self root entries fc ts (he.symm.trans h)

/-- Claim C10: during an extract walk that completes, the ancestor
directories of the joined destination path are created for every entry
regardless of kind, SymbolicLink, HardLink and Other entries included,
so an entry that produces no file or directory of its own still causes
directory creation on disk. -/
theorem extract_mkdir_parents_every_entry (self : SecureTarProcessor) (tar root : String)
    (entries : List Entry)
    (hok : (extractLoop self root entries 0 0).err = none) :
    ∀ m ∈ entries,
      FsEffect.mkdirParents (parentOf (joinPath root m.name)) ∈
        (self.extract_archive tar (some root) (some entries)).effects := by
  intro m hm
  have hmem : FsEffect.mkdirParents (parentOf (joinPath root m.name)) ∈ entryEffects root m := by
    by_cases hf : m.isfile = true
    · simp [entryEffects, hf]
    · by_cases hd : m.isdir = true <;> simp [entryEffects, hf, hd]
  rw [extract_archive_ok_parts self tar (some root) entries hok]
  exact List.mem_cons_of_mem _
    (extractLoop_mem_effects self root entries 0 0 hok m hm _ hmem)

/-- Claim C6: listing the same archive twice with the same limits gives
identical output both times; list_archive performs no filesystem
mutation in any branch (its effect trace is empty), so its printed
report and return value are a pure, deterministic function of the
archive contents and the limits. -/
theorem list_idempotent_no_effects (self : SecureTarProcessor) (tar : String)
    (archive : Option (List Entry)) :
    (self.list_archive tar archive).effects = [] ∧
    (∀ r1 r2 : ExtractResult, r1 = self.list_archive tar archive →
      r2 = self.list_archive tar archive →
      r1.output = r2.output ∧ r1.success = r2.success) := by
  constructor
  · cases archive with
    | none => rfl
    | some entries =>
        cases hh : (listLoop self entries 0 0).err with
        | none => rw [list_archive_ok_parts self tar entries hh]
        | some e => rw [list_archive_err_parts self tar entries e hh]
  · intro r1 r2 h1 h2
    subst h1
    subst h2
    exact ⟨rfl, rfl⟩

/-- Claim C8: extract_archive creates the destination root directory,
defaulting to the archive filename stem plus the _extracted suffix,
before attempting to open the archive: the root mkdir heads the effect
trace in every outcome, and when the archive cannot be opened the trace
holds exactly that mkdir while the call returns False. -/
theorem extract_root_dir_first (self : SecureTarProcessor) (tar : String)
    (ex : Option String) (archive : Option (List Entry)) :
    (self.extract_archive tar ex archive).effects.head? =
      some (FsEffect.mkdirRoot (destRoot tar ex)) ∧
    destRoot tar none = pathStem tar ++ "_extracted" ∧
    (archive = none →
      (self.extract_archive tar ex archive).effects =
        [FsEffect.mkdirRoot (destRoot tar ex)] ∧
      (self.extract_archive tar ex archive).success = false) := by
  refine ⟨?_, rfl, ?_⟩
  · cases archive with
    | none => rfl
    | some entries =>
        cases hh : (extractLoop self (destRoot tar ex) entries 0 0).err with
        | none =>
            rw [extract_archive_ok_parts self tar ex entries hh]
            rfl
        | some e =>
            rw [extract_archive_err_parts self tar ex entries e hh]
            rfl
  · intro h
    subst h
    exact ⟨rfl, rfl⟩

/-- Claim C9: neither walk propagates an error raised while processing
the archive: list_archive and extract_archive return True exactly when
the archive opened and the loop raised no ReadError, return False in
every other case, and print the caught error message. -/
theorem walk_errors_converted (self : SecureTarProcessor) (tar : String)
    (ex : Option String) (archive : Option (List Entry)) :
    ((self.list_archive tar archive).success = true ↔
      ∃ entries, archive = some entries ∧ (listLoop self entries 0 0).err = none) ∧
    ((self.extract_archive tar ex archive).success = true ↔
      ∃ entries, archive = some entries ∧
        (extractLoop self (destRoot tar ex) entries 0 0).err = none) ∧
    (∀ entries : List Entry, ∀ e : WalkError, archive = some entries →
      (listLoop self entries 0 0).err = some e →
      "Error reading tar file: " ++ renderError e ∈ (self.list_archive tar archive).output) ∧
    (∀ entries : List Entry, ∀ e : WalkError, archive = some entries →
      (extractLoop self (destRoot tar ex) entries 0 0).err = some e →
      "Error extracting tar file: " ++ renderError e ∈
        (self.extract_archive tar ex archive).output) := by
  refine ⟨?_, ?_, ?_, ?_⟩
  · cases archive with
    | none => simp [SecureTarProcessor.list_archive]
    | some entries =>
        cases hh : (listLoop self entries 0 0).err with
        | none =>
            rw [list_archive_ok_parts self tar entries hh]
            simp [hh]
        | some e =>
            rw [list_archive_err_parts self tar entries e hh]
            simp [hh]
  · cases archive with
    | none => simp [SecureTarProcessor.extract_archive]
    | some entries =>
        cases hh : (extractLoop self (destRoot tar ex) entries 0 0).err with
        | none =>
            rw [extract_archive_ok_parts self tar ex entries hh]
            simp [hh]
        | some e =>
            rw [extract_archive_err_parts self tar ex entries e hh]
            simp [hh]
  · intro entries e harch he
    subst harch
    rw [list_archive_err_parts self tar entries e he]
    simp
  · intro entries e harch he
    subst harch
    rw [extract_archive_err_parts self tar ex entries e he]
    simp

/-- Claim C1 is violated by the code: extract_archive performs no
path-traversal or absolute-path check at all.  For an entry named with
leading dot-dot segments the walk succeeds and writes the file at a
path that lexically resolves outside the destination root, and for an
absolute entry name the pathlib join discards the root entirely and the
bytes are written to the absolute path.  No PathTraversalRejected or
AbsolutePathRejected outcome exists anywhere in the program. -/
theorem extract_traversal_not_rejected :
    ((SecureTarProcessor.extract_archive ⟨1000000, 1000⟩ "evil.tar" (some "out")
        (some [⟨"../../etc/passwd", EntryKind.regularFile, 3, [1, 2, 3], ""⟩])).success = true ∧
      FsEffect.writeFile "out/../../etc/passwd" [1, 2, 3] ∈
        (SecureTarProcessor.extract_archive ⟨1000000, 1000⟩ "evil.tar" (some "out")
          (some [⟨"../../etc/passwd", EntryKind.regularFile, 3, [1, 2, 3], ""⟩])).effects ∧
      isWithin "out" "out/../../etc/passwd" = false) ∧
    ((SecureTarProcessor.extract_archive ⟨1000000, 1000⟩ "evil.tar" (some "out")
        (some [⟨"/etc/passwd", EntryKind.regularFile, 3, [1, 2, 3], ""⟩])).success = true ∧
      FsEffect.writeFile "/etc/passwd" [1, 2, 3] ∈
        (SecureTarProcessor.extract_archive ⟨1000000, 1000⟩ "evil.tar" (some "out")
          (some [⟨"/etc/passwd", EntryKind.regularFile, 3, [1, 2, 3], ""⟩])).effects ∧
      isWithin "out" "/etc/passwd" = false) := by
  decide

/-- Claim C4 is violated by the code: a SymbolicLink or HardLink entry
is neither materialized nor reported.  The walk creates the parent
directories of the joined path, prints nothing about the entry, and
returns True: the entry is skipped silently, with no link creation and
no warning line in the output. -/
theorem extract_links_silently_skipped :
    ((SecureTarProcessor.extract_archive ⟨1000, 10⟩ "a.tar" (some "out")
        (some [⟨"link", EntryKind.symbolicLink, 0, [], "/etc/passwd"⟩])).success = true ∧
      (SecureTarProcessor.extract_archive ⟨1000, 10⟩ "a.tar" (some "out")
        (some [⟨"link", EntryKind.symbolicLink, 0, [], "/etc/passwd"⟩])).effects =
        [FsEffect.mkdirRoot "out", FsEffect.mkdirParents "out"] ∧
      (SecureTarProcessor.extract_archive ⟨1000, 10⟩ "a.tar" (some "out")
        (some [⟨"link", EntryKind.symbolicLink, 0, [], "/etc/passwd"⟩])).output =
        ["Extracting a.tar to out", dashes, dashes, "Extraction complete: 1 files, 0 bytes"]) ∧
    ((SecureTarProcessor.extract_archive ⟨1000, 10⟩ "a.tar" (some "out")
        (some [⟨"hlink", EntryKind.hardLink, 0, [], "target"⟩])).success = true ∧
      (SecureTarProcessor.extract_archive ⟨1000, 10⟩ "a.tar" (some "out")
        (some [⟨"hlink", EntryKind.hardLink, 0, [], "target"⟩])).effects =
        [FsEffect.mkdirRoot "out", FsEffect.mkdirParents "out"] ∧
      (SecureTarProcessor.extract_archive ⟨1000, 10⟩ "a.tar" (some "out")
        (some [⟨"hlink", EntryKind.hardLink, 0, [], "target"⟩])).output =
        ["Extracting a.tar to out", dashes, dashes, "Extraction complete: 1 files, 0 bytes"]) := by
  decide

/-- Claim C5 is violated by the code: no path-sanitization check runs
in either mode.  In list mode an entry whose name escapes any
conceivable root is printed as an ordinary display line, no warning of
any kind appears, and the walk reports success; the limit checks are
the only validation performed. -/
theorem list_no_path_check_no_warning :
    (SecureTarProcessor.list_archive ⟨1000, 10⟩ "evil.tar"
        (some [⟨"../../etc/passwd", EntryKind.regularFile, 3, [1, 2, 3], ""⟩])).success = true ∧
    (SecureTarProcessor.list_archive ⟨1000, 10⟩ "evil.tar"
        (some [⟨"../../etc/passwd", EntryKind.regularFile, 3, [1, 2, 3], ""⟩])).output =
      ["Listing contents of: evil.tar", dashes,
       displayLine ⟨"../../etc/passwd", EntryKind.regularFile, 3, [1, 2, 3], ""⟩,
       dashes, "Total files: 1", "Total size: 3 bytes"] ∧
    isWithin "evil_extracted" (joinPath "evil_extracted" "../../etc/passwd") = false := by
  decide

/-- Witness for claim C2 at a one-entry archive whose name uses a
confined internal dot-dot segment. -/
theorem extract_success_within_limits_witness :
    (SecureTarProcessor.extract_archive ⟨100, 10⟩ "a.tar" (some "out")
        (some [⟨"a/b/../../c", EntryKind.regularFile, 2, [7, 8], ""⟩])).success = true ∧
    (∀ m ∈ [(⟨"a/b/../../c", EntryKind.regularFile, 2, [7, 8], ""⟩ : Entry)], m.isfile = true →
      FsEffect.writeFile (joinPath "out" m.name) m.content ∈
        (SecureTarProcessor.extract_archive ⟨100, 10⟩ "a.tar" (some "out")
          (some [⟨"a/b/../../c", EntryKind.regularFile, 2, [7, 8], ""⟩])).effects) ∧
    (∀ p : String, ∀ c : List Nat,
      FsEffect.writeFile p c ∈
        (SecureTarProcessor.extract_archive ⟨100, 10⟩ "a.tar" (some "out")
          (some [⟨"a/b/../../c", EntryKind.regularFile, 2, [7, 8], ""⟩])).effects →
      ∃ m, m ∈ [(⟨"a/b/../../c", EntryKind.regularFile, 2, [7, 8], ""⟩ : Entry)] ∧
        m.isfile = true ∧ p = joinPath "out" m.name ∧ c = m.content) :=
  extract_success_within_limits ⟨100, 10⟩ "a.tar" "out"
    [⟨"a/b/../../c", EntryKind.regularFile, 2, [7, 8], ""⟩]
    (by decide) (by decide) (by decide)

/-- Witness for claim C3: with max_files set to one, a second entry
aborts the walk with the Too many files error and only the first entry
leaves effects. -/
theorem extract_abort_on_limit_witness :
    (extractLoop ⟨100, 1⟩ "out" ([⟨"a.txt", EntryKind.regularFile, 1, [0], ""⟩] ++
        ⟨"b.txt", EntryKind.regularFile, 1, [0], ""⟩ :: []) 0 0).err =
      some (WalkError.tooManyFiles 1) ∧
    (SecureTarProcessor.extract_archive ⟨100, 1⟩ "a.tar" (some "out")
        (some ([⟨"a.txt", EntryKind.regularFile, 1, [0], ""⟩] ++
          ⟨"b.txt", EntryKind.regularFile, 1, [0], ""⟩ :: []))).success = false ∧
    (SecureTarProcessor.extract_archive ⟨100, 1⟩ "a.tar" (some "out")
        (some ([⟨"a.txt", EntryKind.regularFile, 1, [0], ""⟩] ++
          ⟨"b.txt", EntryKind.regularFile, 1, [0], ""⟩ :: []))).effects =
      FsEffect.mkdirRoot "out" ::
        (extractLoop ⟨100, 1⟩ "out" [⟨"a.txt", EntryKind.regularFile, 1, [0], ""⟩] 0 0).effects :=
  (extract_abort_on_limit ⟨100, 1⟩ "a.tar" "out"
      [⟨"a.txt", EntryKind.regularFile, 1, [0], ""⟩]
      ⟨"b.txt", EntryKind.regularFile, 1, [0], ""⟩ [] (by decide)).1 (by decide)

/-- Witness for claim C6 at an archive that fails to open. -/
theorem list_idempotent_no_effects_witness :
    (SecureTarProcessor.list_archive ⟨100, 10⟩ "a.tar" none).output =
      (SecureTarProcessor.list_archive ⟨100, 10⟩ "a.tar" none).output ∧
    (SecureTarProcessor.list_archive ⟨100, 10⟩ "a.tar" none).success =
      (SecureTarProcessor.list_archive ⟨100, 10⟩ "a.tar" none).success :=
  (list_idempotent_no_effects ⟨100, 10⟩ "a.tar" none).2
    (SecureTarProcessor.list_archive ⟨100, 10⟩ "a.tar" none)
    (SecureTarProcessor.list_archive ⟨100, 10⟩ "a.tar" none) rfl rfl

/-- Witness for claim C7 at a one-file walk that completes. -/
theorem running_totals_invariant_witness :
    (extractLoop ⟨100, 10⟩ "out"
        [⟨"f.txt", EntryKind.regularFile, 5, [1, 2, 3, 4, 5], ""⟩] 0 0).file_count =
      0 + [(⟨"f.txt", EntryKind.regularFile, 5, [1, 2, 3, 4, 5], ""⟩ : Entry)].length ∧
    (extractLoop ⟨100, 10⟩ "out"
        [⟨"f.txt", EntryKind.regularFile, 5, [1, 2, 3, 4, 5], ""⟩] 0 0).total_size =
      0 + fileSizeSum [⟨"f.txt", EntryKind.regularFile, 5, [1, 2, 3, 4, 5], ""⟩] :=
  (running_totals_invariant ⟨100, 10⟩ "out"
      [⟨"f.txt", EntryKind.regularFile, 5, [1, 2, 3, 4, 5], ""⟩] 0 0).2.2.1 (by decide)

/-- Witness for claim C8 at an archive that fails to open with a
defaulted destination. -/
theorem extract_root_dir_first_witness :
    (SecureTarProcessor.extract_archive ⟨100, 10⟩ "archive.tar" none none).effects =
      [FsEffect.mkdirRoot (destRoot "archive.tar" none)] ∧
    (SecureTarProcessor.extract_archive ⟨100, 10⟩ "archive.tar" none none).success = false :=
  (extract_root_dir_first ⟨100, 10⟩ "archive.tar" none none).2.2 rfl

/-- Witness for claim C9: a readable one-file archive lists with a True
return value. -/
theorem walk_errors_converted_witness :
    (SecureTarProcessor.list_archive ⟨100, 10⟩ "a.tar"
        (some [⟨"f.txt", EntryKind.regularFile, 5, [1, 2, 3, 4, 5], ""⟩])).success = true :=
  (walk_errors_converted ⟨100, 10⟩ "a.tar" none
      (some [⟨"f.txt", EntryKind.regularFile, 5, [1, 2, 3, 4, 5], ""⟩])).1.mpr
    ⟨[⟨"f.txt", EntryKind.regularFile, 5, [1, 2, 3, 4, 5], ""⟩], rfl, by decide⟩

/-- Witness for claim C10: a SymbolicLink entry still causes the mkdir
of its parent directory chain. -/
theorem extract_mkdir_parents_every_entry_witness :
    FsEffect.mkdirParents (parentOf (joinPath "out" "d/link")) ∈
      (SecureTarProcessor.extract_archive ⟨100, 10⟩ "a.tar" (some "out")
        (some [⟨"d/link", EntryKind.symbolicLink, 0, [], "x"⟩])).effects :=
  extract_mkdir_parents_every_entry ⟨100, 10⟩ "a.tar" "out"
    [⟨"d/link", EntryKind.symbolicLink, 0, [], "x"⟩] (by decide)
    ⟨"d/link", EntryKind.symbolicLink, 0, [], "x"⟩ (by decide)
